import Mathlib

/-!
Verification development for the gmirP split-plane proxy bridge
(`src/g-server.js`, `src/g-browser.js`).

The server plane (g-server.js) accepts local HTTP requests, rewrites them
(path repair, query-key stripping, JSON body rewriting) and transmits a
RequestSpec over a WebSocket to a browser plane (g-browser.js), which runs
the upstream fetch with retries and streams framed events back.

The definitions below are a shallow embedding of those two files: JavaScript
values are modelled by `JValue`, JS objects by association lists with unique
keys, the platform `JSON.parse` by an abstract `parse : String → Option JValue`
parameter (the spec declares JSON encoding an external collaborator), and
`JSON.stringify` by the executable `JValue.stringify`.
-/

namespace GmirP

/-- A JavaScript/JSON value as it occurs in request bodies and query maps.
Numbers are modelled as integers (no claim depends on float behaviour);
objects are association lists whose keys are unique when they come from
`JSON.parse` or an Express query. -/
inductive JValue where
  | jnull
  | jbool (b : Bool)
  | jnum (n : Int)
  | jstr (s : String)
  | jarr (elems : List JValue)
  | jobj (fields : List (String × JValue))

/-- Property read `obj.k`: the first binding of `k` (JS objects hold one). -/
def getField : List (String × JValue) → String → Option JValue
  | [], _ => none
  | (k', v) :: rest, k => if k' = k then some v else getField rest k

/-- Property write `obj.k = v`: JS assignment updates the existing slot in
place (keys are unique in objects coming from `JSON.parse`), or appends a
new property at the end. -/
def setField : List (String × JValue) → String → JValue → List (String × JValue)
  | [], k, v => [(k, v)]
  | (k', w) :: rest, k, v =>
      if k' = k then (k, v) :: rest else (k', w) :: setField rest k v

/-- Property removal `delete obj.k`. -/
def deleteField : List (String × JValue) → String → List (String × JValue)
  | [], _ => []
  | (k', w) :: rest, k =>
      if k' = k then deleteField rest k else (k', w) :: deleteField rest k

/-- JS truthiness of a value: `null`, `false`, `0` and `""` are falsy;
arrays and objects are always truthy. -/
def jsTruthy : JValue → Bool
  | .jnull => false
  | .jbool b => b
  | .jnum n => n != 0
  | .jstr s => s != ""
  | .jarr _ => true
  | .jobj _ => true

/-- JS truthiness where `none` stands for `undefined` (falsy). -/
def jsTruthyOpt : Option JValue → Bool
  | none => false
  | some v => jsTruthy v

/-- The JS expression `v.length`: strings and arrays have numeric lengths,
a plain object yields its `length` property (non-numeric values of that
property are elided as undefined), every other value yields undefined. -/
def jsLength : JValue → Option Int
  | .jstr s => some s.length
  | .jarr xs => some xs.length
  | .jobj fs =>
      match getField fs "length" with
      | some (.jnum n) => some n
      | _ => none
  | _ => none

/-- `v.length` where the receiver itself may be undefined. -/
def jsLengthOpt : Option JValue → Option Int
  | none => none
  | some v => jsLength v

/-- The JS comparison `x > 0` where `x` may be undefined
(`undefined > 0` is false). -/
def jsGtZero : Option Int → Bool
  | none => false
  | some n => n > 0

/-- Hex digit used by the `\u00XX` escapes of `JSON.stringify`. -/
def hexDigit (n : Nat) : Char :=
  if n < 10 then Char.ofNat (48 + n) else Char.ofNat (87 + n)

/-- Escaping of a single character inside a JSON string literal, as done by
`JSON.stringify`. -/
def escapeChar (c : Char) : String :=
  if c = '"' then "\\\""
  else if c = '\\' then "\\\\"
  else if c = '\n' then "\\n"
  else if c = '\r' then "\\r"
  else if c = '\t' then "\\t"
  else if c = Char.ofNat 8 then "\\b"
  else if c = Char.ofNat 12 then "\\f"
  else if c.toNat < 32 then
    "\\u00" ++ String.singleton (hexDigit (c.toNat / 16))
            ++ String.singleton (hexDigit (c.toNat % 16))
  else String.singleton c

/-- Escaping of a whole string for a JSON string literal. -/
def escapeString (s : String) : String :=
  String.join (s.toList.map escapeChar)

mutual

/-- The platform `JSON.stringify` on a JS value (no spacing argument). -/
def JValue.stringify : JValue → String
  | .jnull => "null"
  | .jbool b => if b then "true" else "false"
  | .jnum n => toString n
  | .jstr s => "\"" ++ escapeString s ++ "\""
  | .jarr xs => "[" ++ stringifyElems xs ++ "]"
  | .jobj fs => "\x7b" ++ stringifyFields fs ++ "\x7d"

/-- Comma-separated serialization of array elements. -/
def stringifyElems : List JValue → String
  | [] => ""
  | v :: rest =>
      JValue.stringify v ++ (if rest.isEmpty then "" else ",") ++ stringifyElems rest

/-- Comma-separated serialization of object properties. -/
def stringifyFields : List (String × JValue) → String
  | [] => ""
  | (k, v) :: rest =>
      "\"" ++ escapeString k ++ "\":" ++ JValue.stringify v
        ++ (if rest.isEmpty then "" else ",") ++ stringifyFields rest

end

/-! ### Server plane: the Request Rewriter (`ProxyManager.forwardRequest`) -/

/-- The fixed safety-settings list that g-server.js (lines 219-225) assigns
unconditionally to every JSON object body: the five harm categories, each
with threshold BLOCK_NONE. -/
def fixedSafetySettings : JValue :=
  .jarr
    [ .jobj [("category", .jstr "HARM_CATEGORY_HARASSMENT"), ("threshold", .jstr "BLOCK_NONE")]
    , .jobj [("category", .jstr "HARM_CATEGORY_HATE_SPEECH"), ("threshold", .jstr "BLOCK_NONE")]
    , .jobj [("category", .jstr "HARM_CATEGORY_SEXUALLY_EXPLICIT"), ("threshold", .jstr "BLOCK_NONE")]
    , .jobj [("category", .jstr "HARM_CATEGORY_DANGEROUS_CONTENT"), ("threshold", .jstr "BLOCK_NONE")]
    , .jobj [("category", .jstr "HARM_CATEGORY_CIVIC_INTEGRITY"), ("threshold", .jstr "BLOCK_NONE")]
    ]

/-- The guard `finalBody.tools && finalBody.tools.length > 0` of
g-server.js line 203 (`hasTools`). -/
def hasToolsCheck (fs : List (String × JValue)) : Bool :=
  jsTruthyOpt (getField fs "tools") && jsGtZero (jsLengthOpt (getField fs "tools"))

/-- The body rewrite of g-server.js lines 200-227, applied when
`typeof finalBody === 'object' && finalBody !== null`:
if `hasTools` then `delete finalBody.tools`, and in every case
`finalBody.safetySettings = fixedSafetySettings`.  A JSON array also has
JS type object, but property writes on an array are invisible to
`JSON.stringify`, so an array body serializes unchanged. -/
def rewriteJson : JValue → JValue
  | .jobj fs =>
      .jobj (setField (if hasToolsCheck fs then deleteField fs "tools" else fs)
               "safetySettings" fixedSafetySettings)
  | .jarr xs => .jarr xs
  | v => v

/-- g-server.js lines 188-198: start from `req.body` (`none` stands for an
undefined body); if it is a string, try `JSON.parse` and keep the string
as-is when parsing fails.  `parse` stands for the platform `JSON.parse`
(an external collaborator per the spec), returning `none` when it throws. -/
def finalBodyParsed (parse : String → Option JValue) : Option JValue → Option JValue
  | some (.jstr s) => some ((parse s).getD (.jstr s))
  | b => b

/-- The JS test `typeof v === 'object' && v !== null`. -/
def isObjectType : JValue → Bool
  | .jobj _ => true
  | .jarr _ => true
  | _ => false

/-- The final value of the `finalBody` variable of `forwardRequest` after
the parse step (lines 188-198) and the object rewrite (lines 200-227). -/
def finalBody (parse : String → Option JValue) (b : Option JValue) : Option JValue :=
  match finalBodyParsed parse b with
  | some v => some (if isObjectType v then rewriteJson v else v)
  | none => none

/-- JS `String.prototype.replace` with a string pattern: replaces only the
first occurrence. -/
def replaceFirst (s pat repl : String) : String :=
  match s.splitOn pat with
  | [] => s
  | [_] => s
  | a :: b :: rest => a ++ repl ++ String.intercalate pat (b :: rest)

/-- Path repair of g-server.js lines 173-179: if the path contains
`/models/models/`, replace the first occurrence with `/models/`. -/
def fixPath (p : String) : String :=
  if (p.splitOn "/models/models/").length > 1 then
    replaceFirst p "/models/models/" "/models/"
  else p

/-- Query cleaning of g-server.js lines 181-185: copy `req.query` and run
`if (targetQuery.key) delete targetQuery.key`. The guard is JS truthiness,
so a falsy value (such as the empty string) is not deleted. -/
def cleanQuery (q : List (String × JValue)) : List (String × JValue) :=
  if jsTruthyOpt (getField q "key") then deleteField q "key" else q

/-- `ProxyManager.sanitizeHeaders` (g-server.js lines 457-466): drop the
`host`, `connection` and `content-length` request headers (Node lowercases
incoming header names). -/
def sanitizeHeaders (hs : List (String × String)) : List (String × String) :=
  hs.filter (fun p => p.1 != "host" && p.1 != "connection" && p.1 != "content-length")

/-- The RequestSpec transmitted to the browser (g-server.js lines 231-239),
as it arrives after the `JSON.stringify`/`JSON.parse` round trip of the
WebSocket: a `body` whose value is `JSON.stringify(undefined) = undefined`
is an absent key, hence `body : Option String`. -/
structure RequestSpec where
  request_id : String
  method : String
  path : String
  query_params : List (String × JValue)
  headers : List (String × String)
  body : Option String

/-- Construction of the RequestSpec in `forwardRequest` (g-server.js lines
171-239) from the incoming request's pieces: repaired path, cleaned query,
sanitized headers, and `body := JSON.stringify(finalBody)`. -/
def buildRequestSpec (parse : String → Option JValue) (rid method path : String)
    (query : List (String × JValue)) (headers : List (String × String))
    (reqBody : Option JValue) : RequestSpec :=
  { request_id := rid
    method := method
    path := fixPath path
    query_params := cleanQuery query
    headers := sanitizeHeaders headers
    body := (finalBody parse reqBody).map JValue.stringify }

/-! ### Server plane: the WebSocket binding (`ProxyManager.setupWebSocket`)

The `ProxyManager` holds `browserClient` (at most one bound socket) and
`pendingRequests`. A pending entry is modelled by its request id and its
`headersSent` flag; effects on the local client responses are recorded as
`SrvAction` values. -/

/-- An effect applied to a local client response by the connection
handlers. -/
inductive SrvAction where
  | reply502 (requestId : String)
deriving DecidableEq

/-- The mutable state of `ProxyManager` relevant to connection handling:
the bound socket (by id) and the pending table (id, headersSent). -/
structure SrvState where
  browserClient : Option Nat
  pending : List (String × Bool)
deriving DecidableEq

/-- The `connection` handler of g-server.js lines 129-158: it only
overwrites `this.browserClient` with the new socket. The pending table is
untouched and no response is written. -/
def onConnection (s : SrvState) (ws : Nat) : SrvState × List SrvAction :=
  ({ s with browserClient := some ws }, [])

/-- The `close` handler of g-server.js lines 143-157, registered on every
accepted socket. `closedWs` is the socket whose close event fired; the
handler never compares it with the current `browserClient`, so a stale
socket's close clears the live binding too: `browserClient = null`, a 502
`Browser disconnected` reply to every pending request whose headers are
not yet sent, and `pendingRequests.clear()`. -/
def onSocketClose (s : SrvState) (closedWs : Nat) : SrvState × List SrvAction :=
  let _ := closedWs
  ({ browserClient := none, pending := [] },
   (s.pending.filter (fun p => !p.2)).map (fun p => SrvAction.reply502 p.1))

/-- `ProxyManager.isConnected` (g-server.js lines 117-119):
`browserClient !== null && browserClient.readyState === 1`, where
`readyState` gives each socket's state (1 = OPEN). -/
def isConnected (s : SrvState) (readyState : Nat → Nat) : Bool :=
  match s.browserClient with
  | none => false
  | some ws => readyState ws == 1

/-- The gate at the top of `forwardRequest` (g-server.js lines 163-169):
the 503 `Browser not connected` short-circuit, `none` when the request
proceeds. -/
def forwardGate (s : SrvState) (readyState : Nat → Nat) : Option Nat :=
  if isConnected s readyState then none else some 503

/-! ### Server plane: the per-request idle timers

One request's server-side lifecycle: the entry in `pendingRequests`
(`inTable`), its `headersSent` flag, and which idle-timer callback is
currently armed. The three callbacks in the source differ:

* `initialT` — armed by `forwardRequest` (lines 266-280, 600 s): on fire,
  remove the entry and reply 504 only if headers are unsent (nothing is
  written otherwise);
* `afterHeadersT` — armed on entry to `handleResponseHeaders` (lines 321-333,
  300 s): on fire, remove the entry and `res.end()`;
* `afterChunkT` — armed by `handleChunk` (lines 372-392, 300 s): on fire,
  remove the entry, then `res.status(504).end()` if headers are unsent,
  else `res.end()`. -/

/-- Which idle-timer callback is armed for a pending request. -/
inductive TimerKind where
  | initialT
  | afterHeadersT
  | afterChunkT
deriving DecidableEq

/-- Server-side state of a single request. -/
structure ReqState where
  inTable : Bool
  headersSent : Bool
  timer : Option TimerKind
deriving DecidableEq

/-- The state of a request right after `forwardRequest` inserted it
(g-server.js lines 266-280). -/
def initialReqState : ReqState :=
  { inTable := true, headersSent := false, timer := some .initialT }

/-- An effect applied to the local client response by the per-request
handlers. `reply504` covers both `res.status(504).json(...)` and
`res.status(504).end()`: a terminal 504 reply. -/
inductive ClientAction where
  | sendHeaders
  | sendSseHeaders
  | writeChunk
  | status200
  | closeStream
  | reply504
  | replyError
deriving DecidableEq

/-- The events that can reach one pending request: the browser frames
dispatched by `handleBrowserMessage` and the firing of its armed idle
timer. -/
inductive PEv where
  | rspHeadersEv
  | chunkEv
  | streamCloseEv
  | errorEv
  | timerFireEv
deriving DecidableEq

/-- One step of the per-request state machine of g-server.js.  Frames for
ids missing from the table are dropped (`handleBrowserMessage` lines
288-291), and a timer callback re-checks `pendingRequests.has` before
acting, so every event is a no-op when `inTable` is false.

* `rspHeadersEv` — `handleResponseHeaders` (lines 321-369): re-arm the
  timer as `afterHeadersT`; if headers were already sent only a warning is
  logged, otherwise status and filtered headers are replayed and
  `headersSent` is set;
* `chunkEv` — `handleChunk` (lines 372-414): re-arm the timer as
  `afterChunkT`; synthesize the 200/SSE headers first if none were sent;
  write the chunk;
* `streamCloseEv` — `handleStreamClose` (lines 416-432): cancel the timer,
  default the status to 200 if headers are unsent, end the response,
  remove the entry;
* `errorEv` — `handleError` (lines 434-455): cancel the timer, reply the
  error status/body if headers are unsent else just end, remove the entry;
* `timerFireEv` — the armed callback, as described on `TimerKind`. -/
def step (s : ReqState) (e : PEv) : ReqState × List ClientAction :=
  if s.inTable then
    match e with
    | .rspHeadersEv =>
        ({ s with timer := some .afterHeadersT, headersSent := true },
         if s.headersSent then [] else [.sendHeaders])
    | .chunkEv =>
        ({ s with timer := some .afterChunkT, headersSent := true },
         if s.headersSent then [.writeChunk] else [.sendSseHeaders, .writeChunk])
    | .streamCloseEv =>
        ({ s with inTable := false, timer := none },
         if s.headersSent then [.closeStream] else [.status200, .closeStream])
    | .errorEv =>
        ({ s with inTable := false, timer := none },
         if s.headersSent then [.closeStream] else [.replyError])
    | .timerFireEv =>
        match s.timer with
        | some .initialT =>
            ({ s with inTable := false, timer := none },
             if s.headersSent then [] else [.reply504])
        | some .afterHeadersT =>
            ({ s with inTable := false, timer := none }, [.closeStream])
        | some .afterChunkT =>
            ({ s with inTable := false, timer := none },
             if s.headersSent then [.closeStream] else [.reply504])
        | none => (s, [])
  else (s, [])

/-- The request states reachable from the insertion into the pending
table, under any sequence of events. -/
inductive Reach : ReqState → Prop where
  | init : Reach initialReqState
  | next (s : ReqState) (e : PEv) : Reach s → Reach (step s e).1

/-- Invariant tying the armed timer callback to the `headersSent` flag:
the initial timer can only be armed while headers are unsent, and the two
re-armed timers only after headers were sent. -/
abbrev ReqInv (s : ReqState) : Prop :=
  s.inTable = true →
    s.timer ≠ none ∧
    (s.timer = some .initialT → s.headersSent = false) ∧
    (s.timer = some .afterHeadersT → s.headersSent = true) ∧
    (s.timer = some .afterChunkT → s.headersSent = true)

/-! ### Browser plane: `RequestProcessor.execute` (g-browser.js lines 220-284)

The retry loop is modelled as a function of an oracle giving each fetch
attempt's outcome and of the abort signal's value at the two points where
the code reads it: at the top of each loop iteration (`abTop`) and inside
the catch block (`abCatch`).  The actions the loop performs — fetch
attempts and `setTimeout` sleeps — are returned as a trace. -/

/-- Outcome of one `fetch` call: it either throws (an `AbortError` or some
other failure) or resolves with a response status. -/
inductive FetchOutcome where
  | throwErr (isAbortError : Bool)
  | resp (status : Nat)
deriving DecidableEq

/-- An observable action of the retry loop. -/
inductive BFAction where
  | fetchAttempt (i : Nat)
  | sleepMs (ms : Nat)
deriving DecidableEq

/-- Final outcome of `execute`. -/
inductive ExecResult where
  | success (attempt : Nat) (status : Nat)
  | thrownBeforeFetch (attempt : Nat)
  | thrownFromCatch (attempt : Nat)
  | exhausted
deriving DecidableEq

/-- `response.ok`: the status is in the 2xx range. -/
def respOk (s : Nat) : Bool := 200 ≤ s && s ≤ 299

/-- `const maxRetries = 15` (g-browser.js line 231). -/
def maxRetries : Nat := 15

/-- `const retryDelay = 1000` (g-browser.js line 232). -/
def retryDelayMs : Nat := 1000

/-- The catch block of a failed (non-`AbortError`) attempt `a`
(g-browser.js lines 258-273) together with the continuation of the loop:
rethrow when `signal.aborted` is observed in the catch, stop after the
last attempt (`rem = 0` remaining attempts) letting `throw lastError`
fire, otherwise sleep `retryDelay` and continue with the recursive
result `rec`. -/
def failCont (abCatch : Nat → Bool) (a rem : Nat)
    (rec : ExecResult × List BFAction) : ExecResult × List BFAction :=
  if abCatch a then (.thrownFromCatch a, [.fetchAttempt a])
  else if rem = 0 then (.exhausted, [.fetchAttempt a])
  else (rec.1, .fetchAttempt a :: .sleepMs retryDelayMs :: rec.2)

/-- The retry loop of `execute` (g-browser.js lines 234-276), at attempt
`a` with `fuel` attempts still allowed (`fuel = maxRetries - a + 1`).
Per iteration: if `signal.aborted` at the top, throw `Operation
cancelled` without fetching; otherwise fetch.  A 2xx response returns
immediately; a thrown `AbortError` is rethrown; any other failure goes
through `failCont`. -/
def executeLoop (oracle : Nat → FetchOutcome) (abTop abCatch : Nat → Bool) :
    Nat → Nat → ExecResult × List BFAction
  | _, 0 => (.exhausted, [])
  | a, n + 1 =>
      if abTop a then (.thrownBeforeFetch a, [])
      else
        match oracle a with
        | .resp s =>
            if respOk s then (.success a s, [.fetchAttempt a])
            else failCont abCatch a n (executeLoop oracle abTop abCatch (a + 1) n)
        | .throwErr isAb =>
            if isAb then (.thrownFromCatch a, [.fetchAttempt a])
            else failCont abCatch a n (executeLoop oracle abTop abCatch (a + 1) n)

/-- `RequestProcessor.execute`: the loop started at attempt 1 with
`maxRetries` attempts available. -/
def execute (oracle : Nat → FetchOutcome) (abTop abCatch : Nat → Bool) :
    ExecResult × List BFAction :=
  executeLoop oracle abTop abCatch 1 maxRetries

/-- The action trace of `n` consecutive fetch attempts starting at
attempt `a`, with one `retryDelay` sleep between consecutive attempts. -/
def fetchSleepTrace (a : Nat) : Nat → List BFAction
  | 0 => []
  | n + 1 =>
      .fetchAttempt a ::
        (if n = 0 then [] else .sleepMs retryDelayMs :: fetchSleepTrace (a + 1) n)

/-- Whether an action is a fetch attempt. -/
def isFetch : BFAction → Bool
  | .fetchAttempt _ => true
  | .sleepMs _ => false

/-- A concrete attempt oracle: the upstream answers 500 twice, then 200 on
the third attempt. -/
def oracleW : Nat → FetchOutcome :=
  fun n => if n = 3 then .resp 200 else .resp 500

/-- An abort signal that never fires. -/
def abFalse : Nat → Bool := fun _ => false

/-! ### Browser plane: request config and URL
(`RequestProcessor._buildRequestConfig`, `RequestProcessor._constructUrl`,
`RequestProcessor._sanitizeHeaders`, g-browser.js lines 301-335) -/

/-- The `forbiddenHeaders` list of g-browser.js lines 327-331. -/
def forbiddenHeaders : List String :=
  ["host", "connection", "content-length", "origin", "referer", "user-agent",
   "sec-fetch-mode", "sec-fetch-site", "sec-fetch-dest"]

/-- Browser-side header sanitizing (g-browser.js lines 325-335). -/
def sanitizeHeadersBrowser (hs : List (String × String)) : List (String × String) :=
  hs.filter (fun p => !forbiddenHeaders.contains p.1)

/-- JS truthiness of `requestSpec.body : Option String`:
undefined and the empty string are falsy. -/
def jsTruthyStrOpt : Option String → Bool
  | none => false
  | some s => s != ""

/-- The config object handed to `fetch`. -/
structure FetchConfig where
  method : String
  headers : List (String × String)
  body : Option String

/-- `RequestProcessor._buildRequestConfig` (g-browser.js lines 311-323):
the body is attached only when the method is POST, PUT or PATCH and
`requestSpec.body` is truthy. -/
def buildRequestConfig (spec : RequestSpec) : FetchConfig :=
  { method := spec.method
    headers := sanitizeHeadersBrowser spec.headers
    body :=
      if (["POST", "PUT", "PATCH"].contains spec.method) && jsTruthyStrOpt spec.body
      then spec.body else none }

mutual

/-- The JS `String(v)` conversion that `URLSearchParams` applies to each
record value: an array converts as its elements joined by commas
(`Array.prototype.toString`), with null elements becoming empty. -/
def jsToString : JValue → String
  | .jnull => "null"
  | .jbool b => if b then "true" else "false"
  | .jnum n => toString n
  | .jstr s => s
  | .jarr xs => jsToStringElems xs
  | .jobj _ => "[object Object]"

/-- `Array.prototype.join(",")` as used by `Array.prototype.toString`:
null (and undefined) elements convert to the empty string. -/
def jsToStringElems : List JValue → String
  | [] => ""
  | v :: rest =>
      (match v with
       | .jnull => ""
       | w => jsToString w)
        ++ (if rest.isEmpty then "" else ",") ++ jsToStringElems rest

end

/-- The key/value pairs produced by `new URLSearchParams(record)`: one
pair per record entry, the value converted to a string with `String(v)`. -/
def encodedPairs (q : List (String × JValue)) : List (String × String) :=
  q.map (fun p => (p.1, jsToString p.2))

/-- `URLSearchParams.toString()` on a record-initialized instance
(percent-encoding of the serialized characters is elided — it does not
change which pairs exist nor how list values are joined). -/
def searchParamsToString (q : List (String × JValue)) : String :=
  String.intercalate "&" ((encodedPairs q).map (fun p => p.1 ++ "=" ++ p.2))

/-- The fixed upstream host (`this.targetDomain`, g-browser.js line 217). -/
def targetDomain : String := "generativelanguage.googleapis.com"

/-- `RequestProcessor._constructUrl` (g-browser.js lines 301-309). -/
def constructUrl (spec : RequestSpec) : String :=
  let pathSegment := if spec.path.startsWith "/" then spec.path.drop 1 else spec.path
  let queryString := searchParamsToString spec.query_params
  "https://" ++ targetDomain ++ "/" ++ pathSegment
    ++ (if queryString = "" then "" else "?" ++ queryString)

/-! ## Helper lemmas -/

theorem getField_setField_self (fs : List (String × JValue)) (k : String) (v : JValue) :
    getField (setField fs k v) k = some v := by
  induction fs with
  | nil => simp [setField, getField]
  | cons p rest ih =>
      obtain ⟨k', w⟩ := p
      by_cases h : k' = k
      · simp [setField, h, getField]
      · simp [setField, h, getField, ih]

theorem getField_setField_of_ne (fs : List (String × JValue)) (k k' : String) (v : JValue)
    (h : k ≠ k') : getField (setField fs k v) k' = getField fs k' := by
  induction fs with
  | nil => simp [setField, getField, h]
  | cons p rest ih =>
      obtain ⟨k'', w⟩ := p
      by_cases h2 : k'' = k
      · subst h2
        simp [setField, getField, h]
      · by_cases h3 : k'' = k'
        · have h5 : ¬k' = k := fun hh => h hh.symm
          simp [setField, h2, getField, h3, h5]
        · simp [setField, h2, getField, h3, ih]

theorem getField_deleteField (fs : List (String × JValue)) (k : String) :
    getField (deleteField fs k) k = none := by
  induction fs with
  | nil => simp [deleteField, getField]
  | cons p rest ih =>
      obtain ⟨k', w⟩ := p
      by_cases h : k' = k
      · simp [deleteField, h, ih]
      · simp [deleteField, h, getField, ih]

/-! ## Claims C1-C4: the Request Rewriter -/

/-- C1 counterexample: a body that parses as the JSON object
`\x7b"tools": []\x7d` contains a `tools` key, yet the rewritten body placed
in the RequestSpec still contains it: the guard
`finalBody.tools && finalBody.tools.length > 0` is false for an empty
array, so the `delete` never runs. -/
theorem c1_counterexample :
    finalBodyParsed (fun _ => none) (some (.jobj [("tools", .jarr [])]))
      = some (.jobj [("tools", .jarr [])]) ∧
    finalBody (fun _ => none) (some (.jobj [("tools", .jarr [])]))
      = some (.jobj [("tools", .jarr []), ("safetySettings", fixedSafetySettings)]) ∧
    getField [("tools", JValue.jarr []), ("safetySettings", fixedSafetySettings)] "tools"
      = some (.jarr []) :=
  ⟨rfl, rfl, rfl⟩

/-- C1 (amended): for every forwarded request whose body parses as a JSON
object whose `tools` value is truthy with positive length — in particular
a non-empty `tools` list — the body placed in the RequestSpec has no
`tools` key. (A `tools` key holding an empty list or another falsy or
length-less value is retained.) -/
theorem c1_tools_removed_when_nonempty (parse : String → Option JValue)
    (b : Option JValue) (fs : List (String × JValue))
    (hb : finalBodyParsed parse b = some (.jobj fs))
    (ht : hasToolsCheck fs = true) :
    ∃ fs', finalBody parse b = some (.jobj fs') ∧ getField fs' "tools" = none := by
  refine ⟨setField (deleteField fs "tools") "safetySettings" fixedSafetySettings, ?_, ?_⟩
  · simp [finalBody, hb, isObjectType, rewriteJson, ht]
  · rw [getField_setField_of_ne _ _ _ _ (by decide)]
    exact getField_deleteField _ _

/-- C1 witness: the amended theorem evaluated on a body holding a
one-element `tools` array. -/
theorem c1_witness :
    ∃ fs', finalBody (fun _ => none) (some (.jobj [("tools", .jarr [.jobj []])]))
        = some (.jobj fs') ∧
      getField fs' "tools" = none :=
  c1_tools_removed_when_nonempty (fun _ => none) _ _ rfl rfl

/-- C2: for every forwarded request whose body parses as a JSON object, the
body placed in the RequestSpec has `safetySettings` equal to the fixed
five-category BLOCK_NONE list, whatever value (if any) the client supplied
for it. -/
theorem c2_safety_settings_forced (parse : String → Option JValue)
    (b : Option JValue) (fs : List (String × JValue))
    (hb : finalBodyParsed parse b = some (.jobj fs)) :
    ∃ fs', finalBody parse b = some (.jobj fs') ∧
      getField fs' "safetySettings" = some fixedSafetySettings := by
  refine ⟨setField (if hasToolsCheck fs then deleteField fs "tools" else fs)
      "safetySettings" fixedSafetySettings, ?_, getField_setField_self _ _ _⟩
  simp [finalBody, hb, isObjectType, rewriteJson]

/-- C2 witness: the theorem evaluated on a body carrying a client-supplied
`safetySettings` value, which is overwritten. -/
theorem c2_witness :
    ∃ fs', finalBody (fun _ => none) (some (.jobj [("safetySettings", .jstr "OFF")]))
        = some (.jobj fs') ∧
      getField fs' "safetySettings" = some fixedSafetySettings :=
  c2_safety_settings_forced (fun _ => none) _ _ rfl

/-- C3 counterexample: a client-supplied `key` with empty-string value is
falsy, so `if (targetQuery.key) delete targetQuery.key` does not fire and
the RequestSpec transmitted to the browser still maps `key` to `""`. -/
theorem c3_counterexample :
    getField (buildRequestSpec (fun _ => none) "req_1" "GET" "/v1beta/models"
        [("key", .jstr "")] [] none).query_params "key" = some (.jstr "") :=
  rfl

/-- C3 (amended): the `key` query parameter is removed from the RequestSpec
exactly when its client-supplied value is truthy; a falsy value — in
particular the empty string — leaves the query untouched, `key`
included. -/
theorem c3_key_stripped_iff_truthy (parse : String → Option JValue)
    (rid m p : String) (q : List (String × JValue)) (hs : List (String × String))
    (b : Option JValue) :
    (jsTruthyOpt (getField q "key") = true →
       getField (buildRequestSpec parse rid m p q hs b).query_params "key" = none) ∧
    (jsTruthyOpt (getField q "key") = false →
       (buildRequestSpec parse rid m p q hs b).query_params = q) := by
  constructor
  · intro h
    simp [buildRequestSpec, cleanQuery, h, getField_deleteField]
  · intro h
    simp [buildRequestSpec, cleanQuery, h]

/-- C3 witness: a truthy `key=ee` is stripped; an empty `key=` is kept. -/
theorem c3_witness :
    (jsTruthyOpt (getField [("key", JValue.jstr "ee")] "key") = true ∧
     getField (buildRequestSpec (fun _ => none) "req_1" "GET" "/v1beta/models"
        [("key", JValue.jstr "ee")] [] none).query_params "key" = none) ∧
    (jsTruthyOpt (getField [("key", JValue.jstr "")] "key") = false ∧
     (buildRequestSpec (fun _ => none) "req_2" "GET" "/v1beta/models"
        [("key", JValue.jstr "")] [] none).query_params = [("key", JValue.jstr "")]) :=
  ⟨⟨rfl, (c3_key_stripped_iff_truthy (fun _ => none) "req_1" "GET" "/v1beta/models"
      [("key", JValue.jstr "ee")] [] none).1 rfl⟩,
   ⟨rfl, (c3_key_stripped_iff_truthy (fun _ => none) "req_2" "GET" "/v1beta/models"
      [("key", JValue.jstr "")] [] none).2 rfl⟩⟩

/-- C4 (code bug): a plain-text body that does not parse as JSON is not
passed through unchanged. `body: JSON.stringify(finalBody)` re-serializes
the kept string, so the client body `hello` reaches the browser as the
quoted text `"hello"` — although the code's own log line for this branch
says the body will be sent as-is. -/
theorem c4_nonjson_body_requoted :
    (buildRequestSpec (fun _ => none) "req_1" "POST" "/v1beta/models"
        [] [] (some (.jstr "hello"))).body = some "\"hello\"" ∧
    ("\"hello\"" : String) ≠ "hello" := by
  constructor
  · show some (JValue.stringify (.jstr "hello")) = some "\"hello\""
    have h : JValue.stringify (.jstr "hello") = "\"" ++ escapeString "hello" ++ "\"" := by
      simp [JValue.stringify]
    rw [h]
    decide
  · decide

/-! ## Claims C5, C9: WebSocket binding replacement -/

/-- C5 counterexample: a new browser connection (socket 2) is accepted
while socket 1 is bound and one request is in flight; the connection
handler replaces the binding but writes no response and leaves the
in-flight request pending — it is not failed with 502 at that moment. -/
theorem c5_counterexample :
    (onConnection ⟨some 1, [("req_1", false)]⟩ 2).1
      = ⟨some 2, [("req_1", false)]⟩ ∧
    (onConnection ⟨some 1, [("req_1", false)]⟩ 2).2 = [] :=
  ⟨rfl, rfl⟩

/-- C5 (amended): accepting a new browser connection replaces the previous
binding but does not touch the pending table and fails no request; the
in-flight requests whose headers are unsent are failed with
`502 Browser disconnected` only when a close event later fires on a
connected socket (for instance the replaced one). -/
theorem c5_replacement_defers_fanout (s : SrvState) (w1 w2 : Nat) (r : String)
    (hr : (r, false) ∈ s.pending) :
    (onConnection s w2).1.browserClient = some w2 ∧
    (onConnection s w2).1.pending = s.pending ∧
    (onConnection s w2).2 = [] ∧
    SrvAction.reply502 r ∈ (onSocketClose (onConnection s w2).1 w1).2 := by
  refine ⟨rfl, rfl, rfl, ?_⟩
  have h1 : (r, false) ∈ s.pending.filter (fun p => !p.2) :=
    List.mem_filter.mpr ⟨hr, rfl⟩
  have h2 := List.mem_map_of_mem (fun p => SrvAction.reply502 p.1) h1
  simpa [onSocketClose, onConnection] using h2

/-- C5 witness: the amended theorem evaluated on a state with one bound
socket and one pre-header pending request. -/
theorem c5_witness :
    (onConnection ⟨some 1, [("req_9", false)]⟩ 2).1.browserClient = some 2 ∧
    (onConnection ⟨some 1, [("req_9", false)]⟩ 2).1.pending = [("req_9", false)] ∧
    (onConnection ⟨some 1, [("req_9", false)]⟩ 2).2 = [] ∧
    SrvAction.reply502 "req_9"
      ∈ (onSocketClose (onConnection ⟨some 1, [("req_9", false)]⟩ 2).1 1).2 :=
  c5_replacement_defers_fanout ⟨some 1, [("req_9", false)]⟩ 1 2 "req_9"
    (List.mem_singleton.mpr rfl)

/-- C9: after a second browser connection has replaced the first, the close
of the first (stale) socket unconditionally nulls `browserClient` and
clears the pending table, so `isConnected()` turns false and the
`forwardRequest` gate answers 503 — even though the second socket is still
OPEN (`readyState b = 1`). -/
theorem c9_stale_close_clears_live_binding (s : SrvState) (a b : Nat)
    (readyState : Nat → Nat) (hopen : readyState b = 1) :
    isConnected (onConnection (onConnection s a).1 b).1 readyState = true ∧
    (onSocketClose (onConnection (onConnection s a).1 b).1 a).1.browserClient = none ∧
    (onSocketClose (onConnection (onConnection s a).1 b).1 a).1.pending = [] ∧
    isConnected (onSocketClose (onConnection (onConnection s a).1 b).1 a).1 readyState
      = false ∧
    forwardGate (onSocketClose (onConnection (onConnection s a).1 b).1 a).1 readyState
      = some 503 := by
  refine ⟨?_, rfl, rfl, rfl, rfl⟩
  simp [isConnected, onConnection, hopen]

/-- C9 witness: the theorem evaluated with sockets 1 and 2 and every socket
reporting OPEN. -/
theorem c9_witness :
    isConnected (onConnection (onConnection ⟨none, []⟩ 1).1 2).1 (fun _ => 1) = true ∧
    (onSocketClose (onConnection (onConnection ⟨none, []⟩ 1).1 2).1 1).1.browserClient
      = none ∧
    (onSocketClose (onConnection (onConnection ⟨none, []⟩ 1).1 2).1 1).1.pending = [] ∧
    isConnected (onSocketClose (onConnection (onConnection ⟨none, []⟩ 1).1 2).1 1).1
      (fun _ => 1) = false ∧
    forwardGate (onSocketClose (onConnection (onConnection ⟨none, []⟩ 1).1 2).1 1).1
      (fun _ => 1) = some 503 :=
  c9_stale_close_clears_live_binding ⟨none, []⟩ 1 2 (fun _ => 1) rfl

/-! ## Claim C6: idle-timer expiry -/

/-- Reachable request states satisfy the timer/headers invariant: the
initial timer is only armed while headers are unsent, and the two re-armed
timers only once headers were sent. -/
theorem reach_req_inv (s : ReqState) (h : Reach s) : ReqInv s := by
  induction h with
  | init => decide
  | next s e _ ih =>
      rcases s with ⟨it, hs, t⟩
      revert ih
      cases it <;> cases hs <;> rcases t with _ | k
      all_goals try cases k
      all_goals cases e
      all_goals decide

/-- C6: whenever a pending request's idle timer fires, the entry is removed
from the table, and the client receives a 504 reply when response headers
were not yet sent, or has its response stream closed when they were. -/
theorem c6_idle_timer_504_or_close (s : ReqState) (h : Reach s)
    (hin : s.inTable = true) :
    (step s .timerFireEv).1.inTable = false ∧
    (step s .timerFireEv).2
      = (if s.headersSent then [ClientAction.closeStream] else [ClientAction.reply504]) := by
  have hinv := reach_req_inv s h
  rcases s with ⟨it, hs, t⟩
  revert hinv hin
  cases it <;> cases hs <;> rcases t with _ | k
  all_goals try cases k
  all_goals decide

/-- C6 witness: the theorem evaluated at the state created by
`forwardRequest`, where the initial timer is armed and headers are unsent:
the fire removes the entry and replies 504. -/
theorem c6_witness :
    (step initialReqState .timerFireEv).1.inTable = false ∧
    (step initialReqState .timerFireEv).2
      = (if initialReqState.headersSent then [ClientAction.closeStream]
         else [ClientAction.reply504]) :=
  c6_idle_timer_504_or_close initialReqState Reach.init rfl

/-! ## Claim C7: the browser retry loop -/

theorem fetchSleepTrace_one (a : Nat) : fetchSleepTrace a 1 = [.fetchAttempt a] := by
  simp [fetchSleepTrace]

theorem fetchSleepTrace_succ2 (a n : Nat) :
    fetchSleepTrace a (n + 2)
      = .fetchAttempt a :: .sleepMs retryDelayMs :: fetchSleepTrace (a + 1) (n + 1) := by
  simp [fetchSleepTrace]

theorem countP_fetchSleepTrace (k : Nat) : ∀ a, (fetchSleepTrace a k).countP isFetch = k := by
  induction k with
  | zero => intro a; simp [fetchSleepTrace]
  | succ k ih =>
      intro a
      cases k with
      | zero => simp [fetchSleepTrace_one, List.countP_cons, isFetch]
      | succ m =>
          rw [fetchSleepTrace_succ2]
          simp [List.countP_cons, isFetch, ih (a + 1)]

theorem failCont_shape (abCatch : Nat → Bool) (a n : Nat)
    (rec : ExecResult × List BFAction)
    (hrec : ∃ k, k ≤ n ∧
      (rec.2 = fetchSleepTrace (a + 1) k ∨
       (1 ≤ k ∧ rec.2 = fetchSleepTrace (a + 1) k ++ [BFAction.sleepMs retryDelayMs]))) :
    ∃ k, k ≤ n + 1 ∧
      ((failCont abCatch a n rec).2 = fetchSleepTrace a k ∨
       (1 ≤ k ∧ (failCont abCatch a n rec).2
          = fetchSleepTrace a k ++ [BFAction.sleepMs retryDelayMs])) := by
  by_cases hc : abCatch a
  · exact ⟨1, by omega, Or.inl (by simp [failCont, hc, fetchSleepTrace_one])⟩
  · by_cases hn : n = 0
    · exact ⟨1, by omega, Or.inl (by simp [failCont, hc, hn, fetchSleepTrace_one])⟩
    · obtain ⟨k, hk, hcase | ⟨hk1, hcase⟩⟩ := hrec
      · cases k with
        | zero =>
            refine ⟨1, by omega, Or.inr ⟨Nat.le_refl 1, ?_⟩⟩
            simp [failCont, hc, hn, hcase, fetchSleepTrace_one, fetchSleepTrace]
        | succ m =>
            refine ⟨m + 2, by omega, Or.inl ?_⟩
            simp [failCont, hc, hn, hcase, fetchSleepTrace_succ2]
      · cases k with
        | zero => omega
        | succ m =>
            refine ⟨m + 2, by omega, Or.inr ⟨by omega, ?_⟩⟩
            simp [failCont, hc, hn, hcase, fetchSleepTrace_succ2]

theorem executeLoop_shape (oracle : Nat → FetchOutcome) (abTop abCatch : Nat → Bool) :
    ∀ n a, ∃ k, k ≤ n ∧
      ((executeLoop oracle abTop abCatch a n).2 = fetchSleepTrace a k ∨
       (1 ≤ k ∧ (executeLoop oracle abTop abCatch a n).2
          = fetchSleepTrace a k ++ [BFAction.sleepMs retryDelayMs])) := by
  intro n
  induction n with
  | zero => exact fun a => ⟨0, Nat.le_refl 0, Or.inl (by simp [executeLoop, fetchSleepTrace])⟩
  | succ n ih =>
      intro a
      by_cases h1 : abTop a
      · exact ⟨0, Nat.zero_le _, Or.inl (by simp [executeLoop, h1, fetchSleepTrace])⟩
      · cases horo : oracle a with
        | resp s =>
            by_cases hok : respOk s
            · exact ⟨1, by omega,
                Or.inl (by simp [executeLoop, h1, horo, hok, fetchSleepTrace_one])⟩
            · have h := failCont_shape abCatch a n
                (executeLoop oracle abTop abCatch (a + 1) n) (ih (a + 1))
              simpa [executeLoop, h1, horo, hok] using h
        | throwErr isAb =>
            cases hab : isAb
            · have h := failCont_shape abCatch a n
                (executeLoop oracle abTop abCatch (a + 1) n) (ih (a + 1))
              simpa [executeLoop, h1, horo, hab] using h
            · exact ⟨1, by omega,
                Or.inl (by simp [executeLoop, h1, horo, hab, fetchSleepTrace_one])⟩

theorem failCont_mem (abCatch : Nat → Bool) (a n : Nat)
    (rec : ExecResult × List BFAction) (x : BFAction)
    (h : x ∈ (failCont abCatch a n rec).2) :
    x = .fetchAttempt a ∨ x = .sleepMs retryDelayMs ∨ x ∈ rec.2 := by
  by_cases hc : abCatch a
  · simp [failCont, hc] at h
    exact Or.inl h
  · by_cases hn : n = 0
    · simp [failCont, hc, hn] at h
      exact Or.inl h
    · simp [failCont, hc, hn] at h
      rcases h with h | h | h
      · exact Or.inl h
      · exact Or.inr (Or.inl h)
      · exact Or.inr (Or.inr h)

theorem executeLoop_fetch_not_aborted (oracle : Nat → FetchOutcome)
    (abTop abCatch : Nat → Bool) :
    ∀ n a b, BFAction.fetchAttempt b ∈ (executeLoop oracle abTop abCatch a n).2 →
      abTop b = false ∧ a ≤ b := by
  intro n
  induction n with
  | zero => intro a b h; simp [executeLoop] at h
  | succ n ih =>
      intro a b h
      by_cases h1 : abTop a
      · simp [executeLoop, h1] at h
      · have hfc :
            ∀ rec, rec = executeLoop oracle abTop abCatch (a + 1) n →
              BFAction.fetchAttempt b ∈ (failCont abCatch a n rec).2 →
              abTop b = false ∧ a ≤ b := by
          intro rec hrec hm
          rcases failCont_mem abCatch a n rec _ hm with he | he | he
          · have hba : b = a := by simpa using he
            subst hba
            exact ⟨by simpa using h1, Nat.le_refl _⟩
          · simp at he
          · have := ih (a + 1) b (hrec ▸ he)
            exact ⟨this.1, by omega⟩
        cases horo : oracle a with
        | resp s =>
            by_cases hok : respOk s
            · rw [show (executeLoop oracle abTop abCatch a (n + 1)).2 = [.fetchAttempt a] by
                simp [executeLoop, h1, horo, hok]] at h
              have hba : b = a := by simpa using h
              subst hba
              exact ⟨by simpa using h1, Nat.le_refl _⟩
            · refine hfc _ rfl ?_
              rw [show (executeLoop oracle abTop abCatch a (n + 1)).2
                  = (failCont abCatch a n (executeLoop oracle abTop abCatch (a + 1) n)).2 by
                simp [executeLoop, h1, horo, hok]] at h
              exact h
        | throwErr isAb =>
            cases hab : isAb
            · refine hfc _ rfl ?_
              rw [show (executeLoop oracle abTop abCatch a (n + 1)).2
                  = (failCont abCatch a n (executeLoop oracle abTop abCatch (a + 1) n)).2 by
                simp [executeLoop, h1, horo, hab]] at h
              exact h
            · rw [show (executeLoop oracle abTop abCatch a (n + 1)).2 = [.fetchAttempt a] by
                simp [executeLoop, h1, horo, hab]] at h
              have hba : b = a := by simpa using h
              subst hba
              exact ⟨by simpa using h1, Nat.le_refl _⟩

theorem failCont_success (abCatch : Nat → Bool) (a n : Nat)
    (rec : ExecResult × List BFAction) (k s : Nat)
    (h : (failCont abCatch a n rec).1 = .success k s) :
    rec.1 = .success k s ∧
    (failCont abCatch a n rec).2
      = .fetchAttempt a :: .sleepMs retryDelayMs :: rec.2 := by
  by_cases hc : abCatch a
  · simp [failCont, hc] at h
  · by_cases hn : n = 0
    · simp [failCont, hc, hn] at h
    · have h2 : rec.1 = .success k s := by simpa [failCont, hc, hn] using h
      exact ⟨h2, by simp [failCont, hc, hn]⟩

theorem executeLoop_success (oracle : Nat → FetchOutcome) (abTop abCatch : Nat → Bool) :
    ∀ n a k s, (executeLoop oracle abTop abCatch a n).1 = .success k s →
      a ≤ k ∧ respOk s = true ∧ oracle k = .resp s ∧
      (∀ b, BFAction.fetchAttempt b ∈ (executeLoop oracle abTop abCatch a n).2 → b ≤ k) := by
  intro n
  induction n with
  | zero => intro a k s h; simp [executeLoop] at h
  | succ n ih =>
      intro a k s h
      by_cases h1 : abTop a
      · simp [executeLoop, h1] at h
      · have hfcase :
            (executeLoop oracle abTop abCatch a (n + 1)).1
              = (failCont abCatch a n (executeLoop oracle abTop abCatch (a + 1) n)).1 →
            (executeLoop oracle abTop abCatch a (n + 1)).2
              = (failCont abCatch a n (executeLoop oracle abTop abCatch (a + 1) n)).2 →
            a ≤ k ∧ respOk s = true ∧ oracle k = .resp s ∧
            (∀ b, BFAction.fetchAttempt b ∈ (executeLoop oracle abTop abCatch a (n + 1)).2 →
              b ≤ k) := by
          intro hstep hs2
          have hfc := failCont_success abCatch a n
            (executeLoop oracle abTop abCatch (a + 1) n) k s (hstep ▸ h)
          have hih := ih (a + 1) k s hfc.1
          have hak : a + 1 ≤ k := hih.1
          refine ⟨by omega, hih.2.1, hih.2.2.1, ?_⟩
          intro b hb
          rw [hs2, hfc.2] at hb
          rcases List.mem_cons.mp hb with he | hb2
          · have hba : b = a := by simpa using he
            omega
          · rcases List.mem_cons.mp hb2 with he | hb3
            · simp at he
            · exact hih.2.2.2 b hb3
        cases horo : oracle a with
        | resp s' =>
            by_cases hok : respOk s'
            · have hres : ExecResult.success a s' = .success k s := by
                simpa [executeLoop, h1, horo, hok] using h
              injection hres with h3 h4
              refine ⟨by omega, h4 ▸ hok, by rw [← h3, horo, h4], ?_⟩
              intro b hb
              rw [show (executeLoop oracle abTop abCatch a (n + 1)).2 = [.fetchAttempt a] by
                simp [executeLoop, h1, horo, hok]] at hb
              have hba : b = a := by simpa using hb
              omega
            · exact hfcase (by simp [executeLoop, h1, horo, hok])
                (by simp [executeLoop, h1, horo, hok])
        | throwErr isAb =>
            cases hab : isAb
            · exact hfcase (by simp [executeLoop, h1, horo, hab])
                (by simp [executeLoop, h1, horo, hab])
            · simp [executeLoop, h1, horo, hab] at h

theorem executeLoop_2xx_immediate (oracle : Nat → FetchOutcome) (abTop abCatch : Nat → Bool) :
    ∀ n a b s, BFAction.fetchAttempt b ∈ (executeLoop oracle abTop abCatch a n).2 →
      oracle b = .resp s → respOk s = true →
      (executeLoop oracle abTop abCatch a n).1 = .success b s := by
  intro n
  induction n with
  | zero => intro a b s h; simp [executeLoop] at h
  | succ n ih =>
      intro a b s hmem hora hok2
      by_cases h1 : abTop a
      · simp [executeLoop, h1] at hmem
      · have hfcase :
            (executeLoop oracle abTop abCatch a (n + 1)).1
              = (failCont abCatch a n (executeLoop oracle abTop abCatch (a + 1) n)).1 →
            (executeLoop oracle abTop abCatch a (n + 1)).2
              = (failCont abCatch a n (executeLoop oracle abTop abCatch (a + 1) n)).2 →
            b ≠ a →
            (executeLoop oracle abTop abCatch a (n + 1)).1 = .success b s := by
          intro hstep hs2 hbne
          rw [hs2] at hmem
          by_cases hc : abCatch a
          · rw [show (failCont abCatch a n (executeLoop oracle abTop abCatch (a + 1) n)).2
                = [.fetchAttempt a] by simp [failCont, hc]] at hmem
            exact absurd (by simpa using hmem) hbne
          · by_cases hn : n = 0
            · rw [show (failCont abCatch a n (executeLoop oracle abTop abCatch (a + 1) n)).2
                  = [.fetchAttempt a] by simp [failCont, hc, hn]] at hmem
              exact absurd (by simpa using hmem) hbne
            · rw [show (failCont abCatch a n (executeLoop oracle abTop abCatch (a + 1) n)).2
                  = .fetchAttempt a :: .sleepMs retryDelayMs
                      :: (executeLoop oracle abTop abCatch (a + 1) n).2 by
                simp [failCont, hc, hn]] at hmem
              rcases List.mem_cons.mp hmem with he | hmem2
              · exact absurd (by simpa using he) hbne
              · rcases List.mem_cons.mp hmem2 with he | hmem3
                · simp at he
                · have hrec := ih (a + 1) b s hmem3 hora hok2
                  rw [hstep, show (failCont abCatch a n
                      (executeLoop oracle abTop abCatch (a + 1) n)).1
                      = (executeLoop oracle abTop abCatch (a + 1) n).1 by
                    simp [failCont, hc, hn]]
                  exact hrec
        cases horo : oracle a with
        | resp s' =>
            by_cases hok : respOk s'
            · rw [show (executeLoop oracle abTop abCatch a (n + 1)).2 = [.fetchAttempt a] by
                simp [executeLoop, h1, horo, hok]] at hmem
              have hba : b = a := by simpa using hmem
              subst hba
              have hss : FetchOutcome.resp s' = .resp s := by rw [← horo, hora]
              injection hss with h4
              simp [executeLoop, h1, horo, h4, hok2]
            · have hbne : b ≠ a := by
                intro hba
                subst hba
                have hss : FetchOutcome.resp s' = .resp s := by rw [← horo, hora]
                injection hss with h4
                exact hok (by rw [h4]; exact hok2)
              exact hfcase (by simp [executeLoop, h1, horo, hok])
                (by simp [executeLoop, h1, horo, hok]) hbne
        | throwErr isAb =>
            have hbne : b ≠ a := by
              intro hba
              subst hba
              rw [horo] at hora
              exact FetchOutcome.noConfusion hora
            cases hab : isAb
            · exact hfcase (by simp [executeLoop, h1, horo, hab])
                (by simp [executeLoop, h1, horo, hab]) hbne
            · rw [show (executeLoop oracle abTop abCatch a (n + 1)).2 = [.fetchAttempt a] by
                simp [executeLoop, h1, horo, hab]] at hmem
              exact absurd (by simpa using hmem) hbne

/-- C7: for every RequestSpec it executes, the browser fetcher makes at
most 15 fetch attempts (`maxRetries`), its action trace being consecutive
attempts 1,2,… separated by exactly one fixed 1000 ms sleep (possibly
ending in a final sleep when cancellation is observed right after it); an
attempt whose response status is 2xx (`respOk`) is returned immediately
and no later attempt exists; an executed attempt whose oracle outcome is a
2xx response is exactly the returned success (so an attempt fails — and is
retried — only when the fetch throws or the status is not 2xx); and no
attempt is started once the abort signal reads true at the loop top. -/
theorem c7_retry_policy (oracle : Nat → FetchOutcome) (abTop abCatch : Nat → Bool) :
    (∃ k, k ≤ maxRetries ∧
       ((execute oracle abTop abCatch).2 = fetchSleepTrace 1 k ∨
        (1 ≤ k ∧ (execute oracle abTop abCatch).2
           = fetchSleepTrace 1 k ++ [BFAction.sleepMs retryDelayMs]))) ∧
    ((execute oracle abTop abCatch).2.countP isFetch ≤ maxRetries) ∧
    (∀ a s, (execute oracle abTop abCatch).1 = .success a s →
       respOk s = true ∧
       (∀ b, BFAction.fetchAttempt b ∈ (execute oracle abTop abCatch).2 → b ≤ a)) ∧
    (∀ b, BFAction.fetchAttempt b ∈ (execute oracle abTop abCatch).2 → abTop b = false) ∧
    (∀ b s, BFAction.fetchAttempt b ∈ (execute oracle abTop abCatch).2 →
       oracle b = .resp s → respOk s = true →
       (execute oracle abTop abCatch).1 = .success b s) := by
  refine ⟨executeLoop_shape oracle abTop abCatch maxRetries 1, ?_, ?_, ?_, ?_⟩
  · obtain ⟨k, hk, hc | ⟨_, hc⟩⟩ := executeLoop_shape oracle abTop abCatch maxRetries 1
    · show (executeLoop oracle abTop abCatch 1 maxRetries).2.countP isFetch ≤ maxRetries
      rw [hc, countP_fetchSleepTrace]
      exact hk
    · show (executeLoop oracle abTop abCatch 1 maxRetries).2.countP isFetch ≤ maxRetries
      rw [hc]
      simp [List.countP_append, countP_fetchSleepTrace, List.countP_cons, isFetch]
      exact hk
  · intro a s h
    have hS := executeLoop_success oracle abTop abCatch maxRetries 1 a s h
    exact ⟨hS.2.1, hS.2.2.2⟩
  · intro b h
    exact (executeLoop_fetch_not_aborted oracle abTop abCatch maxRetries 1 b h).1
  · intro b s h hora hok
    exact executeLoop_2xx_immediate oracle abTop abCatch maxRetries 1 b s h hora hok

/-- C7 witness: with an upstream that answers 500 twice and then 200, no
abort: the executed attempt 2 was started with the abort flag unset, and
the loop returns the 2xx of attempt 3 as its success. -/
theorem c7_witness :
    abFalse 2 = false ∧ (execute oracleW abFalse abFalse).1 = ExecResult.success 3 200 :=
  ⟨(c7_retry_policy oracleW abFalse abFalse).2.2.2.1 2 (by decide),
   (c7_retry_policy oracleW abFalse abFalse).2.2.2.2 3 200 (by decide) (by decide) (by decide)⟩

/-! ## Claim C8: body presence in the RequestSpec -/

theorem finalBody_isSome (parse : String → Option JValue) (b : Option JValue) :
    (finalBody parse b).isSome = b.isSome := by
  cases b with
  | none => rfl
  | some v => cases v <;> simp [finalBody, finalBodyParsed]

/-- C8 counterexample: a GET request whose (JSON-parsed) body is the empty
object produces a RequestSpec whose `body` field is present — the server
always serializes `finalBody`, whatever the method; GET is not in
\x7bPOST, PUT, PATCH\x7d. -/
theorem c8_counterexample :
    (["POST", "PUT", "PATCH"].contains "GET") = false ∧
    (buildRequestSpec (fun _ => none) "req_1" "GET" "/v1beta/models" [] []
        (some (.jobj []))).body.isSome = true := by
  exact ⟨by decide, rfl⟩

/-- C8 (amended): the server's RequestSpec carries a `body` field exactly
when the parsed client body is defined, independent of the method; the
method gating lives in the browser, whose `_buildRequestConfig` attaches a
body to the upstream fetch exactly when the method is POST, PUT or PATCH
and the RequestSpec body string is truthy. -/
theorem c8_body_presence (parse : String → Option JValue) (rid m p : String)
    (q : List (String × JValue)) (hs : List (String × String)) (b : Option JValue)
    (spec : RequestSpec) :
    ((buildRequestSpec parse rid m p q hs b).body.isSome = b.isSome) ∧
    ((buildRequestConfig spec).body.isSome
       = ((["POST", "PUT", "PATCH"].contains spec.method) && jsTruthyStrOpt spec.body)) := by
  constructor
  · show ((finalBody parse b).map JValue.stringify).isSome = b.isSome
    rw [← finalBody_isSome parse b]
    cases finalBody parse b <;> rfl
  · by_cases hc : (["POST", "PUT", "PATCH"].contains spec.method) && jsTruthyStrOpt spec.body
    · rw [hc]
      simp only [buildRequestConfig, hc, if_true]
      have ht : jsTruthyStrOpt spec.body = true := by
        have h2 := hc
        simp only [Bool.and_eq_true] at h2
        exact h2.2
      cases hb : spec.body with
      | none => rw [hb] at ht; simp [jsTruthyStrOpt] at ht
      | some s => rfl
    · simp only [Bool.not_eq_true] at hc
      rw [hc]
      show (if (["POST", "PUT", "PATCH"].contains spec.method) && jsTruthyStrOpt spec.body
          then spec.body else none).isSome = false
      rw [hc]
      rfl

/-! ## Claim C10: list-valued query parameters -/

theorem intercalate_go_append (s : String) :
    ∀ (as : List String) (acc₁ acc₂ : String),
      String.intercalate.go (acc₁ ++ acc₂) s as = acc₁ ++ String.intercalate.go acc₂ s as := by
  intro as
  induction as with
  | nil => intro acc₁ acc₂; rfl
  | cons a rest ih =>
      intro acc₁ acc₂
      show String.intercalate.go (acc₁ ++ acc₂ ++ s ++ a) s rest = _
      rw [show acc₁ ++ acc₂ ++ s ++ a = acc₁ ++ (acc₂ ++ s ++ a) by
        simp [String.append_assoc]]
      rw [ih]
      rfl

theorem string_intercalate_cons₂ (s a b : String) (bs : List String) :
    String.intercalate s (a :: b :: bs) = a ++ s ++ String.intercalate s (b :: bs) := by
  show String.intercalate.go (a ++ s ++ b) s bs = a ++ s ++ String.intercalate.go b s bs
  rw [show (a ++ s ++ b : String) = (a ++ s) ++ b from rfl, intercalate_go_append]

theorem jsToString_jarr_strings (ss : List String) :
    jsToString (.jarr (ss.map JValue.jstr)) = String.intercalate "," ss := by
  induction ss with
  | nil => simp [jsToString, jsToStringElems, String.intercalate]
  | cons a rest ih =>
      cases rest with
      | nil =>
          simp [jsToString, jsToStringElems, String.intercalate, String.intercalate.go]
      | cons b bs =>
          rw [string_intercalate_cons₂, ← ih]
          simp [jsToString, jsToStringElems]

theorem encodedPairs_cons (p : String × JValue) (rest : List (String × JValue)) :
    encodedPairs (p :: rest) = (p.1, jsToString p.2) :: encodedPairs rest := rfl

theorem filter_encodedPairs_not_mem (rest : List (String × JValue)) (k : String)
    (hk : ∀ p ∈ rest, p.1 ≠ k) :
    (encodedPairs rest).filter (fun p => p.1 == k) = [] := by
  induction rest with
  | nil => rfl
  | cons p rest ih =>
      have h1 : p.1 ≠ k := hk p (List.mem_cons_self p rest)
      rw [encodedPairs_cons, List.filter_cons, if_neg (by simpa using h1)]
      exact ih (fun q hq => hk q (List.mem_cons_of_mem p hq))

/-- C10: when `query_params` maps a key to a list of values, the query
serialized by `_constructUrl` via record-initialized `URLSearchParams`
carries exactly one pair for that key — not one repeated pair per
element — and its value is the `String(·)` conversion of the array, which
for string elements is precisely the elements joined by commas. -/
theorem c10_list_param_single_pair (q : List (String × JValue)) (k : String)
    (xs : List JValue) (ss : List String)
    (hnd : (q.map Prod.fst).Nodup) (hmem : (k, JValue.jarr xs) ∈ q) :
    (encodedPairs q).filter (fun p => p.1 == k) = [(k, jsToString (.jarr xs))] ∧
    jsToString (.jarr (ss.map JValue.jstr)) = String.intercalate "," ss := by
  have hfilter : ∀ (q' : List (String × JValue)), (q'.map Prod.fst).Nodup →
      (k, JValue.jarr xs) ∈ q' →
      (encodedPairs q').filter (fun p => p.1 == k) = [(k, jsToString (.jarr xs))] := by
    intro q'
    induction q' with
    | nil => intro _ hmem'; cases hmem'
    | cons p rest ih =>
        intro hnd' hmem'
        have hnotin : p.1 ∉ rest.map Prod.fst := (List.nodup_cons.mp hnd').1
        rcases List.mem_cons.mp hmem' with he | hm
        · rw [← he] at hnotin ⊢
          have hkout : k ∉ rest.map Prod.fst := by simpa using hnotin
          rw [encodedPairs_cons, List.filter_cons, if_pos (by simp)]
          rw [filter_encodedPairs_not_mem rest k
            (fun q2 hq2 hqk => hkout (hqk ▸ List.mem_map_of_mem Prod.fst hq2))]
        · have hkin : k ∈ rest.map Prod.fst := by
            simpa using List.mem_map_of_mem Prod.fst hm
          have h1 : p.1 ≠ k := fun hh => hnotin (by rw [hh]; exact hkin)
          rw [encodedPairs_cons, List.filter_cons, if_neg (by simpa using h1)]
          exact ih (List.nodup_cons.mp hnd').2 hm
  exact ⟨hfilter q hnd hmem, jsToString_jarr_strings ss⟩

/-- C10 witness: a query mapping `alt` to the two-element list
`["sse", "x"]` yields the single pair `alt=sse,x`. -/
theorem c10_witness :
    (([("alt", JValue.jarr [JValue.jstr "sse", JValue.jstr "x"])].map Prod.fst).Nodup) ∧
    ((encodedPairs [("alt", JValue.jarr [JValue.jstr "sse", JValue.jstr "x"])]).filter
        (fun p => p.1 == "alt")
      = [("alt", jsToString (JValue.jarr [JValue.jstr "sse", JValue.jstr "x"]))]) ∧
    jsToString (JValue.jarr (["sse", "x"].map JValue.jstr))
      = String.intercalate "," ["sse", "x"] := by
  have hnd : (([("alt", JValue.jarr [JValue.jstr "sse", JValue.jstr "x"])].map
      Prod.fst).Nodup) := by simp
  have hmem : ("alt", JValue.jarr [JValue.jstr "sse", JValue.jstr "x"])
      ∈ [("alt", JValue.jarr [JValue.jstr "sse", JValue.jstr "x"])] := by simp
  have h := c10_list_param_single_pair _ "alt" _ ["sse", "x"] hnd hmem
  exact ⟨hnd, h.1, h.2⟩

end GmirP
